import Mathlib

/-!
Verification of the container/stream/process layer of the open-interpreter
code-execution engine (`interpreter/code_interpreters/container_utils.py` and
`interpreter/code_interpreters/subprocess_code_interpreter.py`).

The Python source is shallowly embedded: bytes are `Nat` values below 256,
byte strings are `List Nat`, Python `str` values are lists of Unicode code
points (`List Nat`), and each loop of the source is a Lean function whose
recursion mirrors the loop (bounded loops take an explicit bound argument
equal to the loop's iteration bound so all definitions stay structurally
recursive and computable).  A raised exception is modelled by `Option.none`
or `Except.error`.
-/

namespace OpenInterpreter

/-! ### Python's strict UTF-8 decoder

`bytes.decode("utf-8")` in CPython is a strict UTF-8 decoder: it rejects
continuation errors, overlong encodings, surrogates (0xD800-0xDFFF) and
code points above 0x10FFFF, raising `UnicodeDecodeError` (modelled as
`none`).  On success the result is the list of decoded code points. -/
/-- Decode one UTF-8 sequence whose lead byte is `b` and whose following
bytes start `rest`: returns the code point and the bytes left over, or
`none` on a malformed sequence. -/
def utf8DecodeOne (b : Nat) (rest : List Nat) : Option (Nat × List Nat) :=
  if b < 0x80 then some (b, rest)
  else if b < 0xC2 then none
  else if b ≤ 0xDF then
    match rest with
    | c1 :: rest2 =>
      if 0x80 ≤ c1 ∧ c1 ≤ 0xBF then
        some ((b - 0xC0) * 64 + (c1 - 0x80), rest2)
      else none
    | [] => none
  else if b ≤ 0xEF then
    match rest with
    | c1 :: c2 :: rest2 =>
      if ((if b = 0xE0 then 0xA0 else 0x80) ≤ c1 ∧
           c1 ≤ (if b = 0xED then 0x9F else 0xBF)) ∧
         (0x80 ≤ c2 ∧ c2 ≤ 0xBF) then
        some (((b - 0xE0) * 64 + (c1 - 0x80)) * 64 + (c2 - 0x80), rest2)
      else none
    | _ => none
  else if b ≤ 0xF4 then
    match rest with
    | c1 :: c2 :: c3 :: rest2 =>
      if ((if b = 0xF0 then 0x90 else 0x80) ≤ c1 ∧
           c1 ≤ (if b = 0xF4 then 0x8F else 0xBF)) ∧
         (0x80 ≤ c2 ∧ c2 ≤ 0xBF) ∧ (0x80 ≤ c3 ∧ c3 ≤ 0xBF) then
        some ((((b - 0xF0) * 64 + (c1 - 0x80)) * 64 + (c2 - 0x80)) * 64
               + (c3 - 0x80), rest2)
      else none
    | _ => none
  else none

/-- The decoding loop: each step consumes at least the lead byte, so the
list length is enough fuel.  Running out of fuel (unreachable when the fuel
is at least the list length) reports a malformed input. -/
def utf8DecodeGo : Nat → List Nat → Option (List Nat)
  | _, [] => some []
  | 0, _ :: _ => none
  | fuel + 1, b :: rest =>
    match utf8DecodeOne b rest with
    | none => none
    | some (cp, rest2) => (utf8DecodeGo fuel rest2).map (cp :: ·)

def utf8Decode (l : List Nat) : Option (List Nat) :=
  utf8DecodeGo l.length l

/-! ### FrameCodec: `DockerStreamWrapper.demux_docker_stream`

Source (container_utils.py, lines 202-226):

    stdout = ""
    stderr = ""
    offset = 0
    while offset + 8 <= len(data):
        header = data[offset : offset + 8]
        (stream_type, length) = struct.unpack(">BxxxL", header)
        offset += 8
        chunk = data[offset : offset + length].decode("utf-8")
        offset += length
        if stream_type == 1:
            stdout += chunk
        elif stream_type == 2:
            stderr += chunk
    return (stdout, stderr)

The loop runs at most `len(data)` times (each iteration consumes at least
the 8 header bytes), so `demuxGo` carries `fuel` with the invariant
`data.length ≤ fuel`; `demux_docker_stream` supplies `fuel = data.length`.
Python's slice `data[offset : offset + length]` clamps at the end of the
buffer, which is exactly `List.take`.  The `.decode("utf-8")` call may
raise, which aborts the whole function: hence the `Option` result. -/
def demuxGo (fuel : Nat) (data : List Nat) : Option (List Nat × List Nat) :=
  match fuel, data with
  | fuel + 1, t :: _ :: _ :: _ :: l3 :: l2 :: l1 :: l0 :: rest =>
    let length := ((l3 * 256 + l2) * 256 + l1) * 256 + l0
    match utf8Decode (rest.take length) with
    | none => none
    | some chunk =>
      match demuxGo fuel (rest.drop length) with
      | none => none
      | some (stdout, stderr) =>
        if t = 1 then some (chunk ++ stdout, stderr)
        else if t = 2 then some (stdout, chunk ++ stderr)
        else some (stdout, stderr)
  | _, _ => some ([], [])

def demux_docker_stream (data : List Nat) : Option (List Nat × List Nat) :=
  demuxGo data.length data

/-- The socket-read loop of `DockerStreamWrapper._listen` (lines 172-181):
each `recv` chunk is passed to `demux_docker_stream` on its own and the
decoded texts are appended (via the stdout/stderr pipes) to what earlier
iterations produced.  No unconsumed remainder is carried from one chunk to
the next — `demux_docker_stream` does not even report one.  An exception
while demuxing kills the listener thread (modelled as `none`). -/
def listenDemux : List (List Nat) → Option (List Nat × List Nat)
  | [] => some ([], [])
  | c :: cs =>
    match demux_docker_stream c, listenDemux cs with
    | some (o1, e1), some (o2, e2) => some (o1 ++ o2, e1 ++ e2)
    | _, _ => none

/-! ### Well-formed frames (spec section 6, "Wire framing") -/

/-- 4-byte big-endian encoding of a payload length below `2 ^ 32`. -/
def be32 (n : Nat) : List Nat :=
  [n / 16777216 % 256, n / 65536 % 256, n / 256 % 256, n % 256]

structure Frame where
  streamType : Nat
  payload : List Nat
deriving DecidableEq

/-- A well-formed frame: the tag fits in one byte, the payload is made of
bytes, its length fits the 4-byte big-endian length field, and it is valid
UTF-8 (the spec: "payload is UTF-8 text of the given length"). -/
def Frame.wf (f : Frame) : Prop :=
  f.streamType < 256 ∧ f.payload.length < 4294967296 ∧
    (∀ b ∈ f.payload, b < 256) ∧ (utf8Decode f.payload).isSome

instance (f : Frame) : Decidable f.wf := by
  unfold Frame.wf; infer_instance

/-- Wire encoding of one frame: `[type][3 padding bytes][BE length][payload]`. -/
def encodeFrame (f : Frame) : List Nat :=
  f.streamType :: 0 :: 0 :: 0 :: (be32 f.payload.length ++ f.payload)

def encodeFrames (fs : List Frame) : List Nat :=
  (fs.map encodeFrame).flatten

/-- The text (code points) carried by one frame's payload. -/
def frameText (f : Frame) : List Nat :=
  (utf8Decode f.payload).getD []

def framesStdout (fs : List Frame) : List Nat :=
  ((fs.filter (fun f => f.streamType = 1)).map frameText).flatten

def framesStderr (fs : List Frame) : List Nat :=
  ((fs.filter (fun f => f.streamType = 2)).map frameText).flatten

/-- How one decoded frame routes its payload text onto the two output
channels: tag 1 prepends to stdout, tag 2 to stderr, anything else is
dropped. -/
def routeFrame (f : Frame) (oe : List Nat × List Nat) : List Nat × List Nat :=
  if f.streamType = 1 then (frameText f ++ oe.1, oe.2)
  else if f.streamType = 2 then (oe.1, frameText f ++ oe.2)
  else oe

/-! ### `DockerStreamWrapper.Stream.readline` (lines 159-170)

    def readline(self, timeout=3):
        while '\n' not in self._buffer:
            ready_to_read, _, _ = select.select([self._read_fd], [], [], timeout)
            if not ready_to_read:
                return ''
            chunk = os.read(self._read_fd, 1024).decode('utf-8')
            self._buffer += chunk
        newline_pos = self._buffer.find('\n')
        line = self._buffer[:newline_pos]
        self._buffer = self._buffer[newline_pos + 1:]
        return line

The pipe is modelled by the list of chunks that successive `os.read` calls
return; an exhausted list means the next `select` times out.  The result is
`(returned value, buffer state afterwards)`; `none` models the empty-string
timeout return (the buffer keeps its contents).  `buffer[:buffer.find(c)]`
is `takeWhile (· ≠ c)` and `buffer[buffer.find(c) + 1:]` is
`(dropWhile (· ≠ c)).drop 1`. -/
def readline (buffer : List Char) (chunks : List (List Char)) :
    Option (List Char) × List Char :=
  if Char.ofNat 10 ∈ buffer then
    (some (buffer.takeWhile (· ≠ Char.ofNat 10)),
      (buffer.dropWhile (· ≠ Char.ofNat 10)).drop 1)
  else
    match chunks with
    | [] => (none, buffer)
    | c :: cs => readline (buffer ++ c) cs

/-! ### The stdin branch of `DockerStreamWrapper._listen` (lines 182-200)

    data_to_write = os.read(self._stdin_r, 2048).decode("utf-8")
    data_to_write = re.sub(r'\\([\'"])', r"\1", data_to_write)
    data_to_write = data_to_write.replace("\\n", "\n")
    self._stdin_buffer += data_to_write.encode()
    while b"\n" in self._stdin_buffer:
        newline_pos = self._stdin_buffer.find(b"\n")
        line = self._stdin_buffer[: newline_pos + 1]  # Include the newline
        self._stdin_buffer = self._stdin_buffer[newline_pos + 1 :]
        self._sock.sendall(line)
-/

/-- `re.sub(r'\\([\'"])', r"\1", s)`: scanning left to right, a backslash
immediately followed by a single or double quote is replaced by the bare
quote; every other character (including other backslashes) is kept. -/
def unescape_quotes : List Char → List Char
  | [] => []
  | Char.ofNat 92 :: c :: rest =>
    if c = Char.ofNat 39 ∨ c = Char.ofNat 34 then c :: unescape_quotes rest
    else Char.ofNat 92 :: unescape_quotes (c :: rest)
  | c :: rest => c :: unescape_quotes rest

/-- `s.replace("\\n", "\n")`: scanning left to right, each literal
two-character backslash-n sequence becomes a real newline. -/
def convert_newlines : List Char → List Char
  | [] => []
  | Char.ofNat 92 :: c :: rest =>
    if c = 'n' then Char.ofNat 10 :: convert_newlines rest
    else Char.ofNat 92 :: convert_newlines (c :: rest)
  | c :: rest => c :: convert_newlines rest

/-- The two escape-processing steps applied to one decoded stdin chunk, in
source order: quote unescaping first, then `\n` conversion. -/
def stdin_transform (chunk : List Char) : List Char :=
  convert_newlines (unescape_quotes chunk)

/-- The `while b"\n" in self._stdin_buffer` loop: peel off complete
newline-terminated lines (each including its newline, each sent to the
socket with `sendall`) and keep the trailing partial line.  The loop runs
at most `buf.length` times, hence the explicit bound argument. -/
def sendLinesGo (fuel : Nat) (buf : List Char) :
    List (List Char) × List Char :=
  match fuel with
  | 0 => ([], buf)
  | fuel + 1 =>
    if Char.ofNat 10 ∈ buf then
      let line := buf.takeWhile (· ≠ Char.ofNat 10) ++ [Char.ofNat 10]
      let rest := (buf.dropWhile (· ≠ Char.ofNat 10)).drop 1
      let (lines, rem) := sendLinesGo fuel rest
      (line :: lines, rem)
    else ([], buf)

def sendLines (buf : List Char) : List (List Char) × List Char :=
  sendLinesGo buf.length buf

/-- One full iteration of the stdin branch of `_listen`: transform the
chunk read from the stdin pipe, append it to the stdin buffer, then send
every complete line.  Returns (lines sent to the socket, new buffer). -/
def process_stdin_chunk (stdin_buffer chunk : List Char) :
    List (List Char) × List Char :=
  sendLines (stdin_buffer ++ stdin_transform chunk)

/-! ### `DockerStreamWrapper.__init__` / `close` resource model

`__init__` (lines 128-142) allocates three OS pipes (six descriptors):
stdout read/write, stderr read/write, stdin read/write, plus a stop event
and the listener thread.  `close` (lines 235-241) is

    self._stop_event.set()
    self._thread.join()
    os.close(self._stdout_r)
    os.close(self._stdout_w)
    os.close(self._stderr_r)
    os.close(self._stderr_w)
-/

inductive PipeFd where
  | stdoutR | stdoutW | stderrR | stderrW | stdinR | stdinW
deriving DecidableEq

/-- The pipe file descriptors allocated by `DockerStreamWrapper.__init__`. -/
def constructorPipeFds : List PipeFd :=
  [.stdoutR, .stdoutW, .stderrR, .stderrW, .stdinR, .stdinW]

structure WrapperState where
  openFds : List PipeFd
  stopEventSet : Bool
  threadJoined : Bool
deriving DecidableEq

/-- State right after `__init__`: all six pipe fds open, stop event clear,
listener thread running. -/
def initWrapperState : WrapperState :=
  { openFds := constructorPipeFds, stopEventSet := false, threadJoined := false }

/-- The fds passed to `os.close` in `DockerStreamWrapper.close`. -/
def closedByClose : List PipeFd :=
  [.stdoutR, .stdoutW, .stderrR, .stderrW]

/-- Effect of `DockerStreamWrapper.close` on the wrapper resources. -/
def close (s : WrapperState) : WrapperState :=
  { openFds := s.openFds.filter (fun fd => fd ∉ closedByClose),
    stopEventSet := true,
    threadJoined := true }

/-! ### `DockerProcWrapper.wait_for_container_start` (lines 358-379)

    start_time = time.time()
    while True:
        container_info = self.client.inspect_container(container_id)
        if container_info.get("State", {}).get("Running") is True:
            return True
        if time.time() - start_time > timeout:
            raise TimeoutError("Container did not start within the specified timeout.")
        time.sleep(1)

Idealized timing: the loop body takes the 1-second `sleep`, so the k-th
poll happens k seconds after start and `time.time() - start_time > timeout`
holds exactly when `k > timeout`.  `running k` is the inspected Running
state at poll `k`; the budget argument is `timeout + 1 - k`, which is `0`
exactly when `k > timeout`.  `.ok k` models `return True` at poll `k`. -/
def waitLoop (running : Nat → Bool) : Nat → Nat → Except String Nat
  | budget, k =>
    if running k then .ok k
    else
      match budget with
      | 0 => .error "Container did not start within the specified timeout."
      | budget + 1 => waitLoop running budget (k + 1)

def wait_for_container_start (running : Nat → Bool) (timeout : Nat) :
    Except String Nat :=
  waitLoop running (timeout + 1) 0

/-! ### `DockerProcWrapper.init_container` (lines 282-324) over a Docker
engine model

The engine (the `docker.APIClient` collaborator) is modelled as the list of
existing containers — each with an id, its `session_id` label and its
Running state — plus a fresh-id counter.  `client.containers(filters=
{"label": f"session_id={id}"}, all=True)` lists containers (running or not)
carrying the label; `inspect_container` reports the Running state;
`client.start` makes the container running; `create_container` appends a
new stopped container labelled with the session id. -/

structure DockerContainer where
  cid : Nat
  session_label : String
  running : Bool
deriving DecidableEq

structure Engine where
  containers : List DockerContainer
  nextId : Nat
deriving DecidableEq

def listContainers (e : Engine) (sid : String) : List DockerContainer :=
  e.containers.filter (fun c => c.session_label = sid)

def inspectRunning (e : Engine) (cid : Nat) : Option Bool :=
  (e.containers.find? (fun c => c.cid = cid)).map (fun c => c.running)

def startContainer (e : Engine) (cid : Nat) : Engine :=
  { e with
    containers := e.containers.map
      (fun c => if c.cid = cid then { c with running := true } else c) }

def createContainer (e : Engine) (sid : String) : Engine × Nat :=
  ({ containers :=
       e.containers ++ [{ cid := e.nextId, session_label := sid, running := false }],
     nextId := e.nextId + 1 },
   e.nextId)

/-- `DockerProcWrapper.init_container`: look containers up by the
`session_id` label; if one exists and `inspect` reports `Running is False`,
start it and wait; otherwise create a new labelled container, start it and
wait.  `wait_for_container_start` polls `inspect_container`, which against
this engine model returns the post-`start` state at every poll.  The
returned `Nat` is the container id the wrapper ends up bound to; a wait
timeout raises (`.error`), which `except docker.errors.APIError` does not
catch. -/
def init_container (e : Engine) (sid : String) : Except String (Engine × Nat) :=
  match listContainers e sid with
  | c :: _ =>
    if inspectRunning e c.cid = some false then
      let e2 := startContainer e c.cid
      match wait_for_container_start (fun _ => inspectRunning e2 c.cid == some true) 30 with
      | .ok _ => .ok (e2, c.cid)
      | .error s => .error s
    else .ok (e, c.cid)
  | [] =>
    let (e1, cid) := createContainer e sid
    let e2 := startContainer e1 cid
    match wait_for_container_start (fun _ => inspectRunning e2 cid == some true) 30 with
    | .ok _ => .ok (e2, cid)
    | .error s => .error s

/-! ### `SubprocessCodeInterpreter.run` (subprocess_code_interpreter.py,
lines 98-136)

The generator's yielded events up to the point where it either enters the
output-drain loop (`break`) or returns.  `writeFails i` tells whether the
`self.process.stdin.write(code + "\n")` attempt made with `retry_count = i`
raises `subprocess.SubprocessError`.  The loop `while retry_count <=
max_retries` is bounded: the budget argument equals
`max_retries + 1 - retry_count`, which is `0` exactly when the loop
condition fails, and after the `retry_count += 1` the budget of the next
iteration is the predecessor of the current one.  The returned `Bool` is
`true` when control reaches the drain loop (normal output follows) and
`false` when the generator returns without draining. -/

inductive RunEvent where
  | traceback
  | retryingMsg (retry_count max_retries : Nat)
  | restartingMsg
  | maxRetriesMsg
deriving DecidableEq, BEq

def submitLoop (writeFails : Nat → Bool) (max_retries : Nat) :
    Nat → Nat → List RunEvent × Bool
  | 0, _ => ([], true)
  | budget + 1, retry_count =>
    if writeFails retry_count = false then ([], true)
    else
      let evs : List RunEvent :=
        .traceback ::
          (if retry_count ≠ 0 then
            [.traceback, .retryingMsg retry_count max_retries, .restartingMsg]
          else [])
      if budget = 0 then (evs ++ [.maxRetriesMsg], false)
      else
        let (evs2, drains) := submitLoop writeFails max_retries budget (retry_count + 1)
        (evs ++ evs2, drains)

/-- `run(code)` up to the drain loop.  `setupFails` tells whether
`preprocess_code` or the lazy `start_process` raises
`subprocess.SubprocessError`; in that case the generator yields one
traceback event and returns.  Otherwise the retry loop runs with
`retry_count = 0`, `max_retries = 3` (budget `3 + 1 - 0 = 4`). -/
def run (setupFails : Bool) (writeFails : Nat → Bool) : List RunEvent × Bool :=
  if setupFails then ([.traceback], false)
  else submitLoop writeFails 3 4 0

/-! ## Helper lemmas about the frame codec -/

lemma utf8DecodeGo_step (g b : Nat) (rest : List Nat) :
    utf8DecodeGo (g + 1) (b :: rest) =
      match utf8DecodeOne b rest with
      | none => none
      | some (cp, rest2) => (utf8DecodeGo g rest2).map (cp :: ·) := rfl

lemma utf8DecodeGo_ascii : ∀ (fuel : Nat) (l : List Nat), l.length ≤ fuel →
    (∀ b ∈ l, b < 128) → utf8DecodeGo fuel l = some l := by
  intro fuel
  induction fuel with
  | zero =>
    intro l h1 _
    have hl : l = [] := List.eq_nil_of_length_eq_zero (Nat.le_zero.mp h1)
    subst hl
    rfl
  | succ g ih =>
    intro l h1 h2
    cases l with
    | nil => rfl
    | cons b rest =>
      have hb : b < 128 := h2 b (List.mem_cons_self b rest)
      have hone : utf8DecodeOne b rest = some (b, rest) := by
        unfold utf8DecodeOne
        rw [if_pos hb]
      rw [utf8DecodeGo_step, hone]
      show (utf8DecodeGo g rest).map (b :: ·) = some (b :: rest)
      have hrest : utf8DecodeGo g rest = some rest := by
        refine ih rest ?_ (fun x hx => h2 x (List.mem_cons_of_mem b hx))
        simp only [List.length_cons] at h1
        omega
      rw [hrest]
      rfl

/-- A buffer of ASCII bytes decodes to itself (every byte is its own code
point). -/
lemma utf8Decode_ascii (l : List Nat) (h : ∀ b ∈ l, b < 128) : utf8Decode l = some l :=
  utf8DecodeGo_ascii l.length l (le_refl _) h

lemma demuxGo_nil (fuel : Nat) : demuxGo fuel [] = some ([], []) := by
  cases fuel <;> rfl

/-- One iteration of the `demux_docker_stream` loop, with the header bytes
exposed. -/
lemma demuxGo_step (g t x1 x2 x3 l3 l2 l1 l0 : Nat) (rest : List Nat) :
    demuxGo (g + 1) (t :: x1 :: x2 :: x3 :: l3 :: l2 :: l1 :: l0 :: rest) =
      match utf8Decode (rest.take (((l3 * 256 + l2) * 256 + l1) * 256 + l0)) with
      | none => none
      | some chunk =>
        match demuxGo g (rest.drop (((l3 * 256 + l2) * 256 + l1) * 256 + l0)) with
        | none => none
        | some (stdout, stderr) =>
          if t = 1 then some (chunk ++ stdout, stderr)
          else if t = 2 then some (stdout, chunk ++ stderr)
          else some (stdout, stderr) := rfl

/-- The result of `demuxGo` does not depend on the fuel once the fuel is at
least the buffer length (each loop iteration consumes at least 8 bytes). -/
lemma demuxGo_fuel : ∀ (f1 : Nat) (data : List Nat) (f2 : Nat),
    data.length ≤ f1 → data.length ≤ f2 → demuxGo f1 data = demuxGo f2 data := by
  intro f1
  induction f1 with
  | zero =>
    intro data f2 h1 _
    have hd : data = [] := List.eq_nil_of_length_eq_zero (Nat.le_zero.mp h1)
    subst hd
    rw [demuxGo_nil, demuxGo_nil]
  | succ g ih =>
    intro data f2 h1 h2
    obtain _ | ⟨t, _ | ⟨x1, _ | ⟨x2, _ | ⟨x3, _ | ⟨l3, _ | ⟨l2, _ | ⟨l1, _ | ⟨l0, rest⟩⟩⟩⟩⟩⟩⟩⟩ := data
    · rw [demuxGo_nil, demuxGo_nil]
    · cases f2 <;> rfl
    · cases f2 <;> rfl
    · cases f2 <;> rfl
    · cases f2 <;> rfl
    · cases f2 <;> rfl
    · cases f2 <;> rfl
    · cases f2 <;> rfl
    · have hlen : rest.length + 8 ≤ f2 := by
        simp only [List.length_cons] at h2; omega
      obtain ⟨g2, rfl⟩ : ∃ g2, f2 = g2 + 1 := ⟨f2 - 1, by omega⟩
      rw [demuxGo_step, demuxGo_step]
      have h1d : (rest.drop (((l3 * 256 + l2) * 256 + l1) * 256 + l0)).length ≤ g := by
        rw [List.length_drop]
        simp only [List.length_cons] at h1
        omega
      have h2d : (rest.drop (((l3 * 256 + l2) * 256 + l1) * 256 + l0)).length ≤ g2 := by
        rw [List.length_drop]
        omega
      rw [ih (rest.drop (((l3 * 256 + l2) * 256 + l1) * 256 + l0)) g2 h1d h2d]

/-- Reading back a 4-byte big-endian length field. -/
lemma parse_be32 (L : Nat) (h : L < 4294967296) :
    ((L / 16777216 % 256 * 256 + L / 65536 % 256) * 256 + L / 256 % 256) * 256 + L % 256 = L := by
  omega

/-- Decoding one complete well-formed frame followed by anything: the frame
is consumed exactly and its text routed onto the result of decoding the
remainder. -/
lemma demux_encodeFrame_append (f : Frame) (rest : List Nat) (hf : f.wf) :
    demux_docker_stream (encodeFrame f ++ rest) =
      (demux_docker_stream rest).map (routeFrame f) := by
  obtain ⟨ht, hlen, hbytes, hsome⟩ := hf
  obtain ⟨cps, hcps⟩ := Option.isSome_iff_exists.mp hsome
  have hshape : encodeFrame f ++ rest =
      f.streamType :: 0 :: 0 :: 0 :: (f.payload.length / 16777216 % 256) ::
        (f.payload.length / 65536 % 256) :: (f.payload.length / 256 % 256) ::
        (f.payload.length % 256) :: (f.payload ++ rest) := by
    simp [encodeFrame, be32]
  show demuxGo _ _ = _
  rw [hshape]
  simp only [List.length_cons]
  rw [demuxGo_step, parse_be32 f.payload.length hlen, List.take_left, List.drop_left]
  rw [hcps]
  have hfuel : rest.length ≤ (f.payload ++ rest).length + 6 + 1 := by
    simp [List.length_append]; omega
  rw [demuxGo_fuel ((f.payload ++ rest).length + 6 + 1) rest rest.length hfuel (le_refl _)]
  show _ = (demuxGo rest.length rest).map (routeFrame f)
  cases hrest : demuxGo rest.length rest with
  | none => rfl
  | some pair =>
    obtain ⟨o, e⟩ := pair
    simp only [Option.map_some', routeFrame, frameText, hcps, Option.getD_some]
    split_ifs <;> rfl

lemma framesStdout_cons (f : Frame) (fs : List Frame) :
    framesStdout (f :: fs) =
      (if f.streamType = 1 then frameText f else []) ++ framesStdout fs := by
  by_cases h : f.streamType = 1 <;> simp [framesStdout, List.filter_cons, h]

lemma framesStderr_cons (f : Frame) (fs : List Frame) :
    framesStderr (f :: fs) =
      (if f.streamType = 2 then frameText f else []) ++ framesStderr fs := by
  by_cases h : f.streamType = 2 <;> simp [framesStderr, List.filter_cons, h]

lemma framesStdout_append (fs1 fs2 : List Frame) :
    framesStdout (fs1 ++ fs2) = framesStdout fs1 ++ framesStdout fs2 := by
  simp [framesStdout]

lemma framesStderr_append (fs1 fs2 : List Frame) :
    framesStderr (fs1 ++ fs2) = framesStderr fs1 ++ framesStderr fs2 := by
  simp [framesStderr]

/-- Decoding a run of complete well-formed frames followed by a tail whose
own decode is known. -/
lemma demux_encodeFrames_append (fs : List Frame) (tail o e : List Nat)
    (h : ∀ f ∈ fs, f.wf) (htail : demux_docker_stream tail = some (o, e)) :
    demux_docker_stream (encodeFrames fs ++ tail) =
      some (framesStdout fs ++ o, framesStderr fs ++ e) := by
  induction fs with
  | nil => simpa [encodeFrames, framesStdout, framesStderr] using htail
  | cons f fs ih =>
    have hstep : encodeFrames (f :: fs) ++ tail = encodeFrame f ++ (encodeFrames fs ++ tail) := by
      simp [encodeFrames]
    rw [hstep, demux_encodeFrame_append f _ (h f (List.mem_cons_self f fs))]
    rw [ih (fun g hg => h g (List.mem_cons_of_mem f hg))]
    rw [framesStdout_cons, framesStderr_cons]
    simp only [Option.map_some']
    unfold routeFrame
    split_ifs <;> simp_all [List.append_assoc]

/-- Decoding a buffer that is exactly a run of complete well-formed
frames. -/
lemma demux_encodeFrames (fs : List Frame) (h : ∀ f ∈ fs, f.wf) :
    demux_docker_stream (encodeFrames fs) = some (framesStdout fs, framesStderr fs) := by
  have := demux_encodeFrames_append fs [] [] [] h (by rfl)
  simpa using this

/-- A complete 8-byte header whose declared length exceeds the available
payload bytes: the decoder still decodes the whole available tail. -/
lemma demux_partial_frame (L : Nat) (p pText : List Nat) (hL : L < 4294967296)
    (hlen : p.length < L) (hp : utf8Decode p = some pText) :
    demux_docker_stream (1 :: 0 :: 0 :: 0 :: (be32 L ++ p)) = some (pText, []) := by
  have hshape : (1 : Nat) :: 0 :: 0 :: 0 :: (be32 L ++ p) =
      1 :: 0 :: 0 :: 0 :: (L / 16777216 % 256) :: (L / 65536 % 256) ::
        (L / 256 % 256) :: (L % 256) :: p := by
    simp [be32]
  show demuxGo _ _ = _
  rw [hshape]
  simp only [List.length_cons]
  rw [demuxGo_step, parse_be32 L hL,
    List.take_of_length_le (le_of_lt hlen), hp,
    List.drop_eq_nil_of_le (le_of_lt hlen), demuxGo_nil]
  simp

lemma demuxGo_ascii_isSome : ∀ (fuel : Nat) (data : List Nat),
    (∀ b ∈ data, b < 128) → (demuxGo fuel data).isSome := by
  intro fuel
  induction fuel with
  | zero => intro data _; rfl
  | succ g ih =>
    intro data h
    obtain _ | ⟨t, _ | ⟨x1, _ | ⟨x2, _ | ⟨x3, _ | ⟨l3, _ | ⟨l2, _ | ⟨l1, _ | ⟨l0, rest⟩⟩⟩⟩⟩⟩⟩⟩ := data
    · rfl
    · rfl
    · rfl
    · rfl
    · rfl
    · rfl
    · rfl
    · rfl
    · have hmem : ∀ b ∈ rest, b < 128 := fun b hb => h b (by simp [List.mem_cons, hb])
      rw [demuxGo_step]
      have htake : utf8Decode (rest.take (((l3 * 256 + l2) * 256 + l1) * 256 + l0)) =
          some (rest.take (((l3 * 256 + l2) * 256 + l1) * 256 + l0)) :=
        utf8Decode_ascii _ (fun b hb => hmem b (List.take_subset _ _ hb))
      rw [htake]
      have hdrop := ih (rest.drop (((l3 * 256 + l2) * 256 + l1) * 256 + l0))
        (fun b hb => hmem b (List.drop_subset _ _ hb))
      obtain ⟨pair, hpair⟩ := Option.isSome_iff_exists.mp hdrop
      rw [hpair]
      obtain ⟨o, e⟩ := pair
      by_cases h1 : t = 1 <;> by_cases h2 : t = 2 <;> simp [h1, h2]

/-! ## Claim C1 -/

/-- Claim C1, counterexample: a single well-formed stdout frame carrying
the text "ab" is split after its 9th byte.  The socket-read loop
(`_listen`) decodes each chunk independently and retains no remainder, so
the split decode yields stdout "a" while the unsplit buffer yields "ab":
chunk-boundary invariance fails for the frame decoder as implemented. -/
theorem chunk_boundary_counterexample :
    Frame.wf { streamType := 1, payload := [97, 98] } ∧
    encodeFrames [{ streamType := 1, payload := [97, 98] }] =
      [1, 0, 0, 0, 0, 0, 0, 2, 97] ++ [98] ∧
    listenDemux [[1, 0, 0, 0, 0, 0, 0, 2, 97], [98]] = some ([97], []) ∧
    demux_docker_stream ([1, 0, 0, 0, 0, 0, 0, 2, 97] ++ [98]) = some ([97, 98], []) ∧
    listenDemux [[1, 0, 0, 0, 0, 0, 0, 2, 97], [98]] ≠
      demux_docker_stream ([1, 0, 0, 0, 0, 0, 0, 2, 97] ++ [98]) := by
  decide

/-- Claim C1 (amended): chunk-boundary invariance holds only for splits on
frame boundaries.  When every `recv` chunk is a whole number of well-formed
frames, the per-chunk decoding done by the socket-read loop (which retains
no remainder) agrees with decoding the single unsplit buffer, on both the
stdout and the stderr channel. -/
theorem chunk_boundary_invariance_frame_aligned :
    ∀ (fss : List (List Frame)), (∀ fs ∈ fss, ∀ f ∈ fs, f.wf) →
      listenDemux (fss.map encodeFrames) =
        demux_docker_stream (encodeFrames fss.flatten) := by
  intro fss h
  induction fss with
  | nil => rfl
  | cons fs fss ih =>
    have h1 : ∀ f ∈ fs, f.wf := h fs (List.mem_cons_self fs fss)
    have h2 : ∀ fs2 ∈ fss, ∀ f ∈ fs2, f.wf :=
      fun fs2 hm => h fs2 (List.mem_cons_of_mem fs hm)
    have hflat : ∀ f ∈ fss.flatten, f.wf := by
      intro f hf
      obtain ⟨l, hl, hfl⟩ := List.mem_flatten.mp hf
      exact h2 l hl f hfl
    have happ : ∀ f ∈ fs ++ fss.flatten, f.wf := by
      intro f hf
      rcases List.mem_append.mp hf with hf | hf
      · exact h1 f hf
      · exact hflat f hf
    show (match demux_docker_stream (encodeFrames fs),
            listenDemux (fss.map encodeFrames) with
          | some (o1, e1), some (o2, e2) => some (o1 ++ o2, e1 ++ e2)
          | _, _ => none) = _
    rw [demux_encodeFrames fs h1, ih h2, demux_encodeFrames fss.flatten hflat,
      List.flatten_cons, demux_encodeFrames (fs ++ fss.flatten) happ,
      framesStdout_append, framesStderr_append]

/-- Witness for the amended C1 theorem at a concrete split: one chunk
holding one stdout frame "hi", a second chunk holding one stderr frame
"!". -/
theorem chunk_boundary_invariance_frame_aligned_witness :
    listenDemux
        (([[{ streamType := 1, payload := [104, 105] }],
           [{ streamType := 2, payload := [33] }]] : List (List Frame)).map encodeFrames) =
      demux_docker_stream
        (encodeFrames
          ([[{ streamType := 1, payload := [104, 105] }],
            [{ streamType := 2, payload := [33] }]] : List (List Frame)).flatten) :=
  chunk_boundary_invariance_frame_aligned _ (by decide)

/-! ## Claim C2 -/

/-- Claim C2, counterexample: a buffer holding one complete 8-byte header
that declares a 5-byte stdout payload but is followed by only 2 bytes.
The claim says the decoder consumes zero bytes of this frame and
contributes no output for it; in fact `demux_docker_stream` decodes and
emits the 2 available bytes "ab" (and it returns no consumed-byte count at
all — its result is just the `(stdout, stderr)` pair). -/
theorem no_partial_decode_counterexample :
    demux_docker_stream [1, 0, 0, 0, 0, 0, 0, 5, 97, 98] = some ([97, 98], []) ∧
    ([97, 98] : List Nat) ≠ [] := by
  decide

/-- Claim C2 (amended): when a buffer ends in a complete header declaring a
stdout payload length `L` exceeding the `p.length` available bytes, the
decoder does not stop: it decodes the whole available tail `p` and appends
it to stdout, consuming the entire buffer; no consumed-byte count exists in
the return value, so the caller retains nothing for the next read. -/
theorem incomplete_final_frame_decoded :
    ∀ (fs : List Frame) (L : Nat) (p pText : List Nat),
      (∀ f ∈ fs, f.wf) → L < 4294967296 → p.length < L →
      utf8Decode p = some pText →
      demux_docker_stream (encodeFrames fs ++ 1 :: 0 :: 0 :: 0 :: (be32 L ++ p)) =
        some (framesStdout fs ++ pText, framesStderr fs) := by
  intro fs L p pText hwf hL hlen hp
  have hbase := demux_partial_frame L p pText hL hlen hp
  have := demux_encodeFrames_append fs (1 :: 0 :: 0 :: 0 :: (be32 L ++ p)) pText [] hwf hbase
  simpa using this

/-- Witness for the amended C2 theorem: no leading frames, declared length
5, one available ASCII byte "a". -/
theorem incomplete_final_frame_decoded_witness :
    demux_docker_stream (encodeFrames [] ++ 1 :: 0 :: 0 :: 0 :: (be32 5 ++ [97])) =
      some (framesStdout [] ++ [97], framesStderr []) :=
  incomplete_final_frame_decoded [] 5 [97] [97] (by decide) (by decide) (by decide)
    (by decide)

/-! ## Claim C4 -/

/-- Claim C4, counterexample: `demux_docker_stream` is not total on
arbitrary byte input.  A complete frame whose 1-byte payload is the lone
continuation byte 0x80 (not valid UTF-8) makes `.decode("utf-8")` raise
`UnicodeDecodeError` (modelled by `none`), so the decoder does throw; it
also does not leave a partial tail untouched (see the C2 counterexample). -/
theorem demux_totality_counterexample :
    demux_docker_stream [1, 0, 0, 0, 0, 0, 0, 1, 128] = none := by
  decide

/-- Claim C4 (amended): `demux_docker_stream` returns a `(stdout, stderr)`
pair without throwing on every buffer whose bytes are ASCII (more
generally, whenever each extracted chunk is valid UTF-8), whatever the
frame structure; on such buffers malformed or truncated headers never make
it throw.  It does not, however, stop at the first incomplete frame: the
partial tail is decoded and consumed (see the amended C2 theorem). -/
theorem demux_total_on_ascii :
    ∀ (data : List Nat), (∀ b ∈ data, b < 128) →
      (demux_docker_stream data).isSome := by
  intro data h
  exact demuxGo_ascii_isSome data.length data h

/-- Witness for the amended C4 theorem: a truncated-header buffer of ASCII
bytes decodes without an exception. -/
theorem demux_total_on_ascii_witness :
    (demux_docker_stream [1, 0, 0, 0, 0, 0, 0, 1, 65]).isSome :=
  demux_total_on_ascii [1, 0, 0, 0, 0, 0, 0, 1, 65] (by decide)

/-! ## Claim C3 -/

/-- Claim C3, counterexample: with three consecutive write failures
followed by a success, the yielded events contain only 2 "Restarting
process." diagnostics (likewise only 2 "Retrying..." diagnostics), not 3:
the `retry_count != 0` guard deliberately suppresses the restart
diagnostics of the first failure (only its traceback is yielded). -/
theorem run_retry_counterexample :
    (run false (fun i => decide (i < 3))).1.count RunEvent.restartingMsg = 2 ∧
    (run false (fun i => decide (i < 3))).1.count RunEvent.restartingMsg ≠ 3 ∧
    (run false (fun i => decide (i < 3))).1.countP
        (fun e => match e with | RunEvent.retryingMsg _ _ => true | _ => false) = 2 := by
  decide

/-- Claim C3 (amended): three consecutive write failures followed by a
success yield a lone traceback for the first failure and, for each of the
second and third failures, a doubled traceback plus `Retrying... (k/3)`
and `Restarting process.` — i.e. exactly 2 restart diagnostic events, not
3 — after which control reaches the normal output loop; a fourth
consecutive failure additionally yields the terminal "Maximum retries
reached" event and the generator returns with no further output. -/
theorem run_retry_amended :
    run false (fun i => decide (i < 3)) =
      ([.traceback,
        .traceback, .traceback, .retryingMsg 1 3, .restartingMsg,
        .traceback, .traceback, .retryingMsg 2 3, .restartingMsg], true) ∧
    run false (fun _ => true) =
      ([.traceback,
        .traceback, .traceback, .retryingMsg 1 3, .restartingMsg,
        .traceback, .traceback, .retryingMsg 2 3, .restartingMsg,
        .traceback, .traceback, .retryingMsg 3 3, .restartingMsg,
        .maxRetriesMsg], false) := by
  decide

/-! ## Claim C10 -/

/-- Claim C10: a `subprocess.SubprocessError` raised by the preprocessing
hook or the lazy first `start_process` makes `run` yield exactly one
traceback output event and return immediately — whatever the stdin-write
behaviour would have been, no retry or restart diagnostics are produced
and the drain loop is never entered. -/
theorem run_setup_failure_no_retry :
    ∀ (writeFails : Nat → Bool), run true writeFails = ([RunEvent.traceback], false) := by
  intro writeFails
  rfl

/-- Witness for the C10 theorem at one concrete write oracle. -/
theorem run_setup_failure_no_retry_witness :
    run true (fun _ => false) = ([RunEvent.traceback], false) :=
  run_setup_failure_no_retry (fun _ => false)

/-! ## Claim C9 -/

/-- Claim C9, counterexample: the stdin pipe's two descriptors are
allocated in `__init__` but `close` does not close them — after `close`
they are still open, so "closes all pipe file descriptors allocated at
construction" is false. -/
theorem close_counterexample :
    PipeFd.stdinR ∈ constructorPipeFds ∧ PipeFd.stdinW ∈ constructorPipeFds ∧
    PipeFd.stdinR ∈ (close initWrapperState).openFds ∧
    PipeFd.stdinW ∈ (close initWrapperState).openFds := by
  decide

/-- Claim C9 (amended): a single `close()` call signals the stop flag,
joins the background loop thread, and closes both ends of the stdout pipe
and of the stderr pipe; the stdin pipe's two descriptors remain open. -/
theorem close_spec :
    (close initWrapperState).stopEventSet = true ∧
    (close initWrapperState).threadJoined = true ∧
    (close initWrapperState).openFds = [PipeFd.stdinR, PipeFd.stdinW] ∧
    closedByClose = [PipeFd.stdoutR, PipeFd.stdoutW, PipeFd.stderrR, PipeFd.stderrW] := by
  decide

/-! ## Claim C6 -/

lemma waitLoop_eq (running : Nat → Bool) (budget k : Nat) :
    waitLoop running budget k =
      if running k then .ok k
      else
        match budget with
        | 0 => .error "Container did not start within the specified timeout."
        | budget + 1 => waitLoop running budget (k + 1) := by
  cases budget <;> rfl

lemma waitLoop_ok (running : Nat → Bool) :
    ∀ (budget k0 k : Nat), k0 ≤ k → k ≤ k0 + budget → running k = true →
      (∀ j, k0 ≤ j → j < k → running j = false) →
      waitLoop running budget k0 = .ok k := by
  intro budget
  induction budget with
  | zero =>
    intro k0 k h1 h2 h3 _
    have hk : k = k0 := by omega
    subst hk
    rw [waitLoop_eq, if_pos h3]
  | succ b ih =>
    intro k0 k h1 h2 h3 h4
    by_cases hk : k = k0
    · subst hk
      rw [waitLoop_eq, if_pos h3]
    · have h0 : running k0 = false := h4 k0 (le_refl _) (by omega)
      rw [waitLoop_eq, if_neg (by simp [h0])]
      exact ih (k0 + 1) k (by omega) (by omega) h3
        (fun j hj1 hj2 => h4 j (by omega) hj2)

lemma waitLoop_timeout (running : Nat → Bool) :
    ∀ (budget k0 : Nat), (∀ j, k0 ≤ j → j ≤ k0 + budget → running j = false) →
      waitLoop running budget k0 =
        .error "Container did not start within the specified timeout." := by
  intro budget
  induction budget with
  | zero =>
    intro k0 h
    have h0 : running k0 = false := h k0 (le_refl _) (by omega)
    rw [waitLoop_eq, if_neg (by simp [h0])]
  | succ b ih =>
    intro k0 h
    have h0 : running k0 = false := h k0 (le_refl _) (by omega)
    rw [waitLoop_eq, if_neg (by simp [h0])]
    exact ih (k0 + 1) (fun j hj1 hj2 => h j (by omega) (by omega))

/-- Claim C6: `wait_for_container_start` polls the inspected Running state
once per second (`running k` is the state seen at the k-th poll, one
second apart).  It returns as soon as Running is observed (`.ok k` at the
first poll `k` where `running k` holds, reachable for `k ≤ timeout + 1`),
and if Running is never observed during the poll window it raises
`TimeoutError` ("Container did not start within the specified timeout."),
fatal to the acquire call; the `timeout` parameter defaults to 30 at the
call sites. -/
theorem wait_for_container_start_spec :
    ∀ (running : Nat → Bool) (timeout k : Nat),
      (k ≤ timeout + 1 → running k = true → (∀ j, j < k → running j = false) →
        wait_for_container_start running timeout = .ok k) ∧
      ((∀ j, j ≤ timeout + 1 → running j = false) →
        wait_for_container_start running timeout =
          .error "Container did not start within the specified timeout.") := by
  intro running timeout k
  constructor
  · intro h1 h2 h3
    exact waitLoop_ok running (timeout + 1) 0 k (Nat.zero_le k) (by omega) h2
      (fun j _ hj => h3 j hj)
  · intro h
    exact waitLoop_timeout running (timeout + 1) 0 (fun j _ hj => h j (by omega))

/-- Witness for the C6 theorem: with the default 30-second timeout, a
container first seen running at the 2nd poll makes the wait return there,
and a container that never runs makes the wait raise the timeout error. -/
theorem wait_for_container_start_spec_witness :
    wait_for_container_start (fun n => decide (n = 2)) 30 = .ok 2 ∧
    wait_for_container_start (fun _ => false) 30 =
      .error "Container did not start within the specified timeout." :=
  ⟨(wait_for_container_start_spec (fun n => decide (n = 2)) 30 2).1 (by decide) (by decide)
      (fun j hj => by simp only [decide_eq_false_iff_not]; omega),
   (wait_for_container_start_spec (fun _ => false) 30 0).2 (fun j hj => rfl)⟩

/-! ## Claim C7 -/

/-- Splitting a character list at the first occurrence of `c` (what
`find` + slicing does in the source): the part before the first `c`, then
`c`, then the rest. -/
lemma split_at_first (c : Char) :
    ∀ (l : List Char), c ∈ l →
      l = l.takeWhile (· ≠ c) ++ c :: (l.dropWhile (· ≠ c)).drop 1 ∧
      c ∉ l.takeWhile (· ≠ c) ∧
      ((l.dropWhile (· ≠ c)).drop 1).length < l.length := by
  intro l
  induction l with
  | nil => intro h; exact absurd h (List.not_mem_nil c)
  | cons x xs ih =>
    intro h
    by_cases hx : x = c
    · subst hx
      have hneg : ¬((fun ch => decide (ch ≠ x)) x = true) := by simp
      refine ⟨?_, ?_, ?_⟩
      · rw [@List.takeWhile_cons_of_neg _ (fun ch => decide (ch ≠ x)) x xs hneg,
          @List.dropWhile_cons_of_neg _ (fun ch => decide (ch ≠ x)) x xs hneg]
        simp
      · rw [@List.takeWhile_cons_of_neg _ (fun ch => decide (ch ≠ x)) x xs hneg]
        exact List.not_mem_nil x
      · rw [@List.dropWhile_cons_of_neg _ (fun ch => decide (ch ≠ x)) x xs hneg]
        simp
    · have hmem : c ∈ xs := by
        rcases List.mem_cons.mp h with h1 | h1
        · exact absurd h1.symm hx
        · exact h1
      obtain ⟨ih1, ih2, ih3⟩ := ih hmem
      have hp : (fun ch => decide (ch ≠ c)) x = true := by simp [hx]
      refine ⟨?_, ?_, ?_⟩
      · rw [@List.takeWhile_cons_of_pos _ (fun ch => decide (ch ≠ c)) x xs hp,
          @List.dropWhile_cons_of_pos _ (fun ch => decide (ch ≠ c)) x xs hp,
          List.cons_append]
        exact congrArg (x :: ·) ih1
      · rw [@List.takeWhile_cons_of_pos _ (fun ch => decide (ch ≠ c)) x xs hp]
        intro hc
        rcases List.mem_cons.mp hc with h1 | h1
        · exact hx h1.symm
        · exact ih2 h1
      · rw [@List.dropWhile_cons_of_pos _ (fun ch => decide (ch ≠ c)) x xs hp]
        simp only [List.length_cons]
        omega

/-- Claim C7: `Stream.readline` with no newline buffered and no data
arriving before the `select` timeout returns the empty string and leaves
its buffer untouched; when a newline is buffered it returns the text up to
(and excluding) the first newline and retains everything after it. -/
theorem readline_spec :
    ∀ (buffer : List Char) (chunks : List (List Char)),
      (Char.ofNat 10 ∉ buffer → readline buffer [] = (none, buffer)) ∧
      (Char.ofNat 10 ∈ buffer → ∃ pre post,
        buffer = pre ++ Char.ofNat 10 :: post ∧ Char.ofNat 10 ∉ pre ∧
        readline buffer chunks = (some pre, post)) := by
  intro buffer chunks
  have hmemline : Char.ofNat 10 ∈ buffer →
      readline buffer chunks =
        (some (buffer.takeWhile (· ≠ Char.ofNat 10)),
          (buffer.dropWhile (· ≠ Char.ofNat 10)).drop 1) := by
    intro h
    cases chunks with
    | nil =>
      show (if Char.ofNat 10 ∈ buffer then
          (some (buffer.takeWhile (· ≠ Char.ofNat 10)),
            (buffer.dropWhile (· ≠ Char.ofNat 10)).drop 1)
        else (none, buffer)) = _
      rw [if_pos h]
    | cons c cs =>
      show (if Char.ofNat 10 ∈ buffer then
          (some (buffer.takeWhile (· ≠ Char.ofNat 10)),
            (buffer.dropWhile (· ≠ Char.ofNat 10)).drop 1)
        else readline (buffer ++ c) cs) = _
      rw [if_pos h]
  constructor
  · intro h
    show (if Char.ofNat 10 ∈ buffer then
        (some (buffer.takeWhile (· ≠ Char.ofNat 10)),
          (buffer.dropWhile (· ≠ Char.ofNat 10)).drop 1)
      else (none, buffer)) = _
    rw [if_neg h]
  · intro h
    obtain ⟨heq2, hpre, _⟩ := split_at_first (Char.ofNat 10) buffer h
    exact ⟨buffer.takeWhile (· ≠ Char.ofNat 10),
      (buffer.dropWhile (· ≠ Char.ofNat 10)).drop 1, heq2, hpre, hmemline h⟩

/-- Witness for the C7 theorem: an "a" buffer with no incoming data times
out unchanged; an "a\nb" buffer returns line "a" and retains "b". -/
theorem readline_spec_witness :
    readline [Char.ofNat 97] [] = (none, [Char.ofNat 97]) ∧
    (∃ pre post,
      [Char.ofNat 97, Char.ofNat 10, Char.ofNat 98] = pre ++ Char.ofNat 10 :: post ∧
      Char.ofNat 10 ∉ pre ∧
      readline [Char.ofNat 97, Char.ofNat 10, Char.ofNat 98] [] = (some pre, post)) :=
  ⟨(readline_spec [Char.ofNat 97] []).1 (by decide),
   (readline_spec [Char.ofNat 97, Char.ofNat 10, Char.ofNat 98] []).2 (by decide)⟩

/-! ## Claim C8 -/

lemma sendLinesGo_step (g : Nat) (buf : List Char) :
    sendLinesGo (g + 1) buf =
      if Char.ofNat 10 ∈ buf then
        ((buf.takeWhile (· ≠ Char.ofNat 10) ++ [Char.ofNat 10]) ::
            (sendLinesGo g ((buf.dropWhile (· ≠ Char.ofNat 10)).drop 1)).1,
          (sendLinesGo g ((buf.dropWhile (· ≠ Char.ofNat 10)).drop 1)).2)
      else ([], buf) := rfl

/-- The line-forwarding loop of `_listen`: the sent lines followed by the
retained remainder reassemble the buffer, every sent line is one complete
line ending in its newline, and the remainder holds no newline. -/
lemma sendLinesGo_spec :
    ∀ (fuel : Nat) (buf : List Char), buf.length ≤ fuel →
      (sendLinesGo fuel buf).1.flatten ++ (sendLinesGo fuel buf).2 = buf ∧
      (∀ l ∈ (sendLinesGo fuel buf).1,
        ∃ pre, l = pre ++ [Char.ofNat 10] ∧ Char.ofNat 10 ∉ pre) ∧
      Char.ofNat 10 ∉ (sendLinesGo fuel buf).2 := by
  intro fuel
  induction fuel with
  | zero =>
    intro buf h
    have hb : buf = [] := List.eq_nil_of_length_eq_zero (Nat.le_zero.mp h)
    subst hb
    refine ⟨rfl, ?_, ?_⟩
    · intro l hl; exact absurd hl (List.not_mem_nil l)
    · exact List.not_mem_nil _
  | succ g ih =>
    intro buf hlen
    by_cases hnl : Char.ofNat 10 ∈ buf
    · obtain ⟨heq, hpre, hless⟩ := split_at_first (Char.ofNat 10) buf hnl
      obtain ⟨r1, r2, r3⟩ := ih ((buf.dropWhile (· ≠ Char.ofNat 10)).drop 1) (by omega)
      rw [sendLinesGo_step, if_pos hnl]
      refine ⟨?_, ?_, r3⟩
      · show (buf.takeWhile (· ≠ Char.ofNat 10) ++ [Char.ofNat 10]) ++
            (sendLinesGo g _).1.flatten ++ (sendLinesGo g _).2 = buf
        rw [List.append_assoc, r1]
        conv_rhs => rw [heq]
        simp
      · intro l hl
        rcases List.mem_cons.mp hl with h1 | h1
        · exact ⟨buf.takeWhile (· ≠ Char.ofNat 10), h1, hpre⟩
        · exact r2 l h1
    · rw [sendLinesGo_step, if_neg hnl]
      exact ⟨by simp, fun l hl => absurd hl (List.not_mem_nil l), hnl⟩

/-- Claim C8: for one chunk read from the stdin pipe, the bridge unescapes
backslash-quote pairs to bare quotes (leaving other backslashes alone),
turns literal backslash-n pairs into real newlines, appends to the stdin
buffer, forwards every complete newline-terminated line including its
newline, and keeps the trailing partial line: the forwarded lines plus the
retained remainder reassemble buffer + transformed chunk, each forwarded
line ends in its newline with none before it, and the remainder holds no
newline. -/
theorem stdin_chunk_spec :
    ∀ (stdin_buffer chunk : List Char),
      (process_stdin_chunk stdin_buffer chunk).1.flatten ++
          (process_stdin_chunk stdin_buffer chunk).2 =
        stdin_buffer ++ stdin_transform chunk ∧
      (∀ l ∈ (process_stdin_chunk stdin_buffer chunk).1,
        ∃ pre, l = pre ++ [Char.ofNat 10] ∧ Char.ofNat 10 ∉ pre) ∧
      Char.ofNat 10 ∉ (process_stdin_chunk stdin_buffer chunk).2 ∧
      (∀ cs, unescape_quotes (Char.ofNat 92 :: Char.ofNat 39 :: cs) =
        Char.ofNat 39 :: unescape_quotes cs) ∧
      (∀ cs, unescape_quotes (Char.ofNat 92 :: Char.ofNat 34 :: cs) =
        Char.ofNat 34 :: unescape_quotes cs) ∧
      (∀ cs, convert_newlines (Char.ofNat 92 :: Char.ofNat 110 :: cs) =
        Char.ofNat 10 :: convert_newlines cs) := by
  intro stdin_buffer chunk
  obtain ⟨s1, s2, s3⟩ :=
    sendLinesGo_spec (stdin_buffer ++ stdin_transform chunk).length
      (stdin_buffer ++ stdin_transform chunk) (le_refl _)
  refine ⟨s1, s2, s3, ?_, ?_, ?_⟩
  · intro cs; simp [unescape_quotes]
  · intro cs; simp [unescape_quotes]
  · intro cs; simp [convert_newlines]

/-- Witness for the C8 theorem: buffer empty, chunk `a\n` (real newline):
one complete line is forwarded and it is that line. -/
theorem stdin_chunk_spec_witness :
    (process_stdin_chunk [] [Char.ofNat 97, Char.ofNat 10]).1.flatten ++
        (process_stdin_chunk [] [Char.ofNat 97, Char.ofNat 10]).2 =
      [] ++ stdin_transform [Char.ofNat 97, Char.ofNat 10] ∧
    (∃ pre, [Char.ofNat 97, Char.ofNat 10] = pre ++ [Char.ofNat 10] ∧
      Char.ofNat 10 ∉ pre) :=
  ⟨(stdin_chunk_spec [] [Char.ofNat 97, Char.ofNat 10]).1,
   (stdin_chunk_spec [] [Char.ofNat 97, Char.ofNat 10]).2.1
      [Char.ofNat 97, Char.ofNat 10] (by decide)⟩

/-! ## Claim C5 -/

/-- Starting a container changes no labels and removes no containers:
label-filtering commutes with the start update. -/
lemma filter_label_map_start :
    ∀ (l : List DockerContainer) (cid : Nat) (sid : String),
      (l.map (fun c => if c.cid = cid then { c with running := true } else c)).filter
          (fun c => c.session_label = sid) =
        (l.filter (fun c => c.session_label = sid)).map
          (fun c => if c.cid = cid then { c with running := true } else c) := by
  intro l cid sid
  induction l with
  | nil => rfl
  | cons c l ih =>
    simp only [List.map_cons, List.filter_cons]
    by_cases hc : c.cid = cid <;> by_cases hs : c.session_label = sid <;>
      simp [hc, hs, ih]

/-- After `client.start(cid)`, `inspect_container(cid)` reports Running
(whenever some container with that id exists). -/
lemma find_map_start :
    ∀ (l : List DockerContainer) (cid : Nat), (∃ c ∈ l, c.cid = cid) →
      ((l.map (fun c => if c.cid = cid then { c with running := true } else c)).find?
          (fun c => c.cid = cid)).map (fun c => c.running) = some true := by
  intro l cid
  induction l with
  | nil =>
    rintro ⟨c, hc, _⟩
    exact absurd hc (List.not_mem_nil c)
  | cons c l ih =>
    rintro ⟨d, hd, hdc⟩
    by_cases hc : c.cid = cid
    · simp only [List.map_cons]
      rw [List.find?_cons_of_pos]
      · simp [hc]
      · simp [hc]
    · simp only [List.map_cons]
      rw [List.find?_cons_of_neg]
      · apply ih
        rcases List.mem_cons.mp hd with h1 | h1
        · subst h1
          exact absurd hdc hc
        · exact ⟨d, h1, hdc⟩
      · simp [hc]

lemma inspectRunning_start (e : Engine) (cid : Nat)
    (h : ∃ c ∈ e.containers, c.cid = cid) :
    inspectRunning (startContainer e cid) cid = some true :=
  find_map_start e.containers cid h

/-- The readiness wait done right after starting a container in this
engine model: Running is observed at the very first poll. -/
lemma wait_start_ok (e : Engine) (cid : Nat) (h : inspectRunning e cid = some true) :
    wait_for_container_start (fun _ => inspectRunning e cid == some true) 30 = .ok 0 := by
  show waitLoop (fun _ => inspectRunning e cid == some true) 31 0 = .ok 0
  rw [waitLoop_eq, if_pos (by simp [h])]

/-- `init_container` when the label lookup finds a container that inspect
does not report as stopped: it is reused as is, nothing is created or
started. -/
lemma init_container_found_running (e : Engine) (sid : String) (c : DockerContainer)
    (tl : List DockerContainer) (hls : listContainers e sid = c :: tl)
    (hrun : ¬(inspectRunning e c.cid = some false)) :
    init_container e sid = .ok (e, c.cid) := by
  simp only [init_container]
  rw [hls]
  simp [hrun]

/-- `init_container` when the label lookup finds a stopped container: it is
started (no new container is created) and returned after the readiness
wait. -/
lemma init_container_found_stopped (e : Engine) (sid : String) (c : DockerContainer)
    (tl : List DockerContainer) (hls : listContainers e sid = c :: tl)
    (hrun : inspectRunning e c.cid = some false) :
    init_container e sid = .ok (startContainer e c.cid, c.cid) := by
  have hmemc : c ∈ e.containers := by
    have hm : c ∈ listContainers e sid := by
      rw [hls]
      exact List.mem_cons_self c tl
    exact List.mem_of_mem_filter hm
  have hex : ∃ d ∈ e.containers, d.cid = c.cid := ⟨c, hmemc, rfl⟩
  have hwait := wait_start_ok (startContainer e c.cid) c.cid (inspectRunning_start e c.cid hex)
  simp only [init_container]
  rw [hls]
  simp [hrun, hwait]

/-- `init_container` when no container carries the label: one is created,
labelled, started, and returned after the readiness wait. -/
lemma init_container_notfound (e : Engine) (sid : String)
    (hls : listContainers e sid = []) :
    init_container e sid =
      .ok (startContainer (createContainer e sid).1 e.nextId, e.nextId) := by
  have hex : ∃ d ∈ (createContainer e sid).1.containers, d.cid = e.nextId := by
    refine ⟨{ cid := e.nextId, session_label := sid, running := false }, ?_, rfl⟩
    simp [createContainer]
  have hwait := wait_start_ok (startContainer (createContainer e sid).1 e.nextId) e.nextId
    (inspectRunning_start (createContainer e sid).1 e.nextId hex)
  simp only [init_container]
  rw [hls]
  simp only [createContainer] at hwait ⊢
  simp [hwait]

/-- Claim C5: acquiring a container for the same session id twice reuses
the same container.  If the first `init_container` call returns engine
state `e1` and container `c1`, running `init_container` again on `e1` with
the same session id returns exactly `(e1, c1)` — the engine state is
untouched, so no second container is created — and the
at-most-one-container-per-label invariant is preserved by the first call. -/
theorem init_container_reuse :
    ∀ (e : Engine) (sid : String) (e1 : Engine) (c1 : Nat),
      init_container e sid = .ok (e1, c1) →
      init_container e1 sid = .ok (e1, c1) ∧
      ((listContainers e sid).length ≤ 1 → (listContainers e1 sid).length ≤ 1) := by
  intro e sid e1 c1 h
  cases hls : listContainers e sid with
  | nil =>
    rw [init_container_notfound e sid hls] at h
    simp only [Except.ok.injEq, Prod.mk.injEq] at h
    obtain ⟨he, hc⟩ := h
    subst he
    subst hc
    have hls1 : listContainers (startContainer (createContainer e sid).1 e.nextId) sid =
        [{ cid := e.nextId, session_label := sid, running := true }] := by
      show ((createContainer e sid).1.containers.map _).filter _ = _
      rw [filter_label_map_start]
      simp only [createContainer]
      rw [List.filter_append]
      have hnil : e.containers.filter (fun c => c.session_label = sid) = [] := hls
      rw [hnil]
      simp
    have hex : ∃ d ∈ (createContainer e sid).1.containers, d.cid = e.nextId := by
      refine ⟨{ cid := e.nextId, session_label := sid, running := false }, ?_, rfl⟩
      simp [createContainer]
    constructor
    · have hrun1 : ¬(inspectRunning (startContainer (createContainer e sid).1 e.nextId)
          ({ cid := e.nextId, session_label := sid, running := true } :
            DockerContainer).cid = some false) := by
        have h2 := inspectRunning_start (createContainer e sid).1 e.nextId hex
        show ¬(inspectRunning (startContainer (createContainer e sid).1 e.nextId)
          e.nextId = some false)
        simp [h2]
      exact init_container_found_running _ sid _ [] hls1 hrun1
    · intro _
      rw [hls1]
      simp
  | cons c tl =>
    by_cases hrun : inspectRunning e c.cid = some false
    · rw [init_container_found_stopped e sid c tl hls hrun] at h
      simp only [Except.ok.injEq, Prod.mk.injEq] at h
      obtain ⟨he, hc⟩ := h
      subst he
      subst hc
      have hmemc : c ∈ e.containers := by
        have hm : c ∈ listContainers e sid := by
          rw [hls]
          exact List.mem_cons_self c tl
        exact List.mem_of_mem_filter hm
      have hex : ∃ d ∈ e.containers, d.cid = c.cid := ⟨c, hmemc, rfl⟩
      have hls1 : listContainers (startContainer e c.cid) sid =
          (c :: tl).map (fun d => if d.cid = c.cid then { d with running := true } else d) := by
        show (e.containers.map _).filter _ = _
        rw [filter_label_map_start]
        have hfl : e.containers.filter (fun d => d.session_label = sid) = c :: tl := hls
        rw [hfl]
      have hls2 : listContainers (startContainer e c.cid) sid =
          { cid := c.cid, session_label := c.session_label, running := true } ::
            tl.map (fun d => if d.cid = c.cid then { d with running := true } else d) := by
        rw [hls1]
        simp
      constructor
      · have hrun1 : ¬(inspectRunning (startContainer e c.cid)
            ({ cid := c.cid, session_label := c.session_label, running := true } :
              DockerContainer).cid = some false) := by
          have h2 := inspectRunning_start e c.cid hex
          show ¬(inspectRunning (startContainer e c.cid) c.cid = some false)
          simp [h2]
        exact init_container_found_running _ sid
          { cid := c.cid, session_label := c.session_label, running := true } _ hls2 hrun1
      · intro hle
        rw [hls1]
        simpa using hle
    · rw [init_container_found_running e sid c tl hls hrun] at h
      simp only [Except.ok.injEq, Prod.mk.injEq] at h
      obtain ⟨he, hc⟩ := h
      subst he
      subst hc
      refine ⟨init_container_found_running e sid c tl hls hrun, fun hle => ?_⟩
      rw [hls]
      exact hle

/-- Witness for the C5 theorem: a fresh engine and session id "s".  The
first acquire creates container 0 and starts it; re-acquiring on the
resulting engine returns the same container 0 and leaves the engine
unchanged. -/
theorem init_container_reuse_witness :
    init_container
        { containers := [{ cid := 0, session_label := "s", running := true }], nextId := 1 }
        "s" =
      .ok ({ containers := [{ cid := 0, session_label := "s", running := true }],
             nextId := 1 }, 0) :=
  (init_container_reuse { containers := [], nextId := 0 } "s"
    { containers := [{ cid := 0, session_label := "s", running := true }], nextId := 1 } 0
    (by rfl)).1

end OpenInterpreter
